import Mathlib

/-
Verification of the cac-reptracker representative-lookup pipeline.

The definitions below are a shallow embedding of the Go sources:
  api.go      (getMembers, apiMemberToMember, decodeData, fetchJSON)
  models.go   (Member, ApiMember, ApiTerms, ApiTermItem, State)
  cache.go    (Cache, CacheItem, NewCache, Get, Set)
  mock.go     (getStateList)
Machine time is modelled as a Nat instant passed explicitly wherever the Go
code calls time.Now(); durations are in seconds (1 hour = 3600).  Response
bodies are modelled as byte lists (List Nat).  Network outcomes are passed
in as explicit parameters, since the Go code observes them only through the
http client.
-/

namespace RepTracker

/-- Model of the chars of a Go string: Lean String wraps a List Char. -/
abbrev Bytes := List Nat

/-- ApiTermItem from models.go: a single term in the terms.item array.
EndYear is a nullable int pointer in Go, hence Option Int. -/
structure ApiTermItem where
  chamber : String
  startYear : Int
  endYear : Option Int
deriving DecidableEq

/-- ApiTerms from models.go: the nested terms object of the API response. -/
structure ApiTerms where
  item : List ApiTermItem
deriving DecidableEq

/-- ApiMember from models.go: one raw record of the Congress.gov response. -/
structure ApiMember where
  bioguideID : String
  name : String
  terms : ApiTerms
  state : String
  district : Int
  party : String
deriving DecidableEq

/-- Member from models.go: the client-facing record returned to the app. -/
structure Member where
  id : String
  firstName : String
  lastName : String
  party : String
  district : String
deriving DecidableEq

/-- State from models.go: a two-letter code with the full state name. -/
structure State where
  code : String
  name : String
deriving DecidableEq

/-- getStateList from mock.go: the fixed jurisdiction table used by the
package that contains getMembers (50 states, no DC in this variant). -/
def getStateList : List State :=
  [⟨"AL", "Alabama"⟩, ⟨"AK", "Alaska"⟩, ⟨"AZ", "Arizona"⟩, ⟨"AR", "Arkansas"⟩,
   ⟨"CA", "California"⟩, ⟨"CO", "Colorado"⟩, ⟨"CT", "Connecticut"⟩, ⟨"DE", "Delaware"⟩,
   ⟨"FL", "Florida"⟩, ⟨"GA", "Georgia"⟩, ⟨"HI", "Hawaii"⟩, ⟨"ID", "Idaho"⟩,
   ⟨"IL", "Illinois"⟩, ⟨"IN", "Indiana"⟩, ⟨"IA", "Iowa"⟩, ⟨"KS", "Kansas"⟩,
   ⟨"KY", "Kentucky"⟩, ⟨"LA", "Louisiana"⟩, ⟨"ME", "Maine"⟩, ⟨"MD", "Maryland"⟩,
   ⟨"MA", "Massachusetts"⟩, ⟨"MI", "Michigan"⟩, ⟨"MN", "Minnesota"⟩, ⟨"MS", "Mississippi"⟩,
   ⟨"MO", "Missouri"⟩, ⟨"MT", "Montana"⟩, ⟨"NE", "Nebraska"⟩, ⟨"NV", "Nevada"⟩,
   ⟨"NH", "New Hampshire"⟩, ⟨"NJ", "New Jersey"⟩, ⟨"NM", "New Mexico"⟩, ⟨"NY", "New York"⟩,
   ⟨"NC", "North Carolina"⟩, ⟨"ND", "North Dakota"⟩, ⟨"OH", "Ohio"⟩, ⟨"OK", "Oklahoma"⟩,
   ⟨"OR", "Oregon"⟩, ⟨"PA", "Pennsylvania"⟩, ⟨"RI", "Rhode Island"⟩, ⟨"SC", "South Carolina"⟩,
   ⟨"SD", "South Dakota"⟩, ⟨"TN", "Tennessee"⟩, ⟨"TX", "Texas"⟩, ⟨"UT", "Utah"⟩,
   ⟨"VT", "Vermont"⟩, ⟨"VA", "Virginia"⟩, ⟨"WA", "Washington"⟩, ⟨"WV", "West Virginia"⟩,
   ⟨"WI", "Wisconsin"⟩, ⟨"WY", "Wyoming"⟩]

/-- Model of strings.ToUpper restricted to ASCII (all codes are ASCII). -/
def toUpperStr (s : String) : String := ⟨s.data.map Char.toUpper⟩

/-- Model of strings.ToLower restricted to ASCII. -/
def toLowerStr (s : String) : String := ⟨s.data.map Char.toLower⟩

/-- Model of strings.EqualFold for ASCII strings: case-insensitive equality. -/
def equalFold (a b : String) : Bool := toLowerStr a == toLowerStr b

/-- Drop leading whitespace characters from a char list. -/
def dropLeadingWS : List Char → List Char
  | [] => []
  | c :: rest => if c.isWhitespace then dropLeadingWS rest else c :: rest

/-- Model of strings.TrimSpace: drop whitespace from both ends. -/
def trimSpace (s : String) : String :=
  ⟨(dropLeadingWS (dropLeadingWS s.data).reverse).reverse⟩

/-- Split a char list at the first comma, if any.  Models the effect of
strings.SplitN(s, ",", 2): none means no comma was present. -/
def splitFirstComma : List Char → Option (List Char × List Char)
  | [] => none
  | c :: rest =>
    if c = ',' then some ([], rest)
    else
      match splitFirstComma rest with
      | none => none
      | some (l, r) => some (c :: l, r)

/-- The name-splitting block of apiMemberToMember (api.go lines 86-98):
split on the first comma into last name and remainder, take the first
space-delimited token of the trimmed remainder as the first name; with no
comma the whole trimmed string is the last name.  Returns
(firstName, lastName). -/
def parseLastFirstName (name : String) : String × String :=
  match splitFirstComma name.data with
  | some (lastPart, firstMiddlePart) =>
    let firstMiddle := trimSpace ⟨firstMiddlePart⟩
    (⟨firstMiddle.data.takeWhile (fun c => c != ' ')⟩, trimSpace ⟨lastPart⟩)
  | none => ("", trimSpace name)

/-- The party switch of apiMemberToMember (api.go lines 100-117).  Note the
leading space in every non-empty label, exactly as in the source. -/
def partyLabel (party : String) : String :=
  if party = "Democratic" then " (D)"
  else if party = "Republican" then " (R)"
  else if party = "Independent" then " (I)"
  else if party = "Libertarian" then " (L)"
  else if party = "Green" then " (G)"
  else if 0 < party.length then " (" ++ party ++ ")"
  else ""

/-- The district block of apiMemberToMember (api.go lines 119-130). -/
def districtLabel (district : Int) (lastChamber : String) : String :=
  if district = 0 then
    if equalFold lastChamber "Senate" then "Senator" else "At-Large Rep."
  else "District " ++ toString district ++ " Rep."

/-- apiMemberToMember from api.go: converts an ApiMember to a client-facing
Member for current members only; none models the ok=false return.  The Go
code checks len(Terms.Item) == 0 and then reads Item[len-1]; getLast?
combines both. -/
def apiMemberToMember (apiM : ApiMember) : Option Member :=
  match apiM.terms.item.getLast? with
  | none => none
  | some lastTerm =>
    match lastTerm.endYear with
    | some _ => none
    | none =>
      let names := parseLastFirstName apiM.name
      some ⟨apiM.bioguideID, names.1, names.2, partyLabel apiM.party,
            districtLabel apiM.district lastTerm.chamber⟩

/-- CacheItem from cache.go: a cached member list with its absolute
expiration instant. -/
structure CacheItem where
  value : List Member
  expiresAt : Nat
deriving DecidableEq

/-- The cache mapping of cache.go, as a total function to Option. -/
def Cache := String → Option CacheItem

/-- NewCache from cache.go: the empty mapping. -/
def NewCache : Cache := fun _ => none

/-- Cache.Get from cache.go with the time.Now() instant passed explicitly:
absent when the key was never stored or when now is strictly after the
expiration instant (time.Now().After(item.ExpiresAt)). -/
def Cache.Get (c : Cache) (key : String) (now : Nat) : Option (List Member) :=
  match c key with
  | none => none
  | some item => if item.expiresAt < now then none else some item.value

/-- Cache.Set from cache.go with the time.Now() instant passed explicitly:
stores the value with ExpiresAt = now + ttl. -/
def Cache.Set (c : Cache) (key : String) (value : List Member) (ttl now : Nat) : Cache :=
  fun k => if k = key then some ⟨value, now + ttl⟩ else c k

/-- One Set operation applied to the cache: key, value, ttl, and the
instant at which the Set executed. -/
structure SetOp where
  key : String
  value : List Member
  ttl : Nat
  time : Nat
deriving DecidableEq

/-- Apply a chronological list of Set operations to a cache. -/
def applySets (c : Cache) : List SetOp → Cache
  | [] => c
  | op :: rest => applySets (Cache.Set c op.key op.value op.ttl op.time) rest

/-- The cache produced by a chronological list of Set operations starting
from the empty cache. -/
def runSets (ops : List SetOp) : Cache := applySets NewCache ops

/-- The last operation in the list that targets the given key, if any. -/
def lastSetFor : List SetOp → String → Option SetOp
  | [], _ => none
  | op :: rest, k =>
    match lastSetFor rest k with
    | some o => some o
    | none => if op.key = k then some op else none

/-- An HTTP response as the Go client observes it: a status code and a
body (a byte list). -/
structure HTTPResponse where
  statusCode : Nat
  body : Bytes
deriving DecidableEq

/-- The transport-level outcome of one client.Get attempt: either a
transport failure (err != nil) carrying the error text, or a response. -/
inductive AttemptOutcome where
  | failure (err : String)
  | response (resp : HTTPResponse)
deriving DecidableEq

/-- The error taxonomy of fetchJSON (api.go): missing credential, retry
budget exhausted on transport failure (wrapping the last failure), or a
non-200 status with a bounded body snippet. -/
inductive FetchError where
  | configError (msg : String)
  | transportError (attempts : Nat) (lastErr : String)
  | upstreamError (status : Nat) (snippet : Bytes)
deriving DecidableEq

/-- maxRetries from fetchJSON in api.go. -/
def maxRetries : Nat := 3

/-- Result of fetchJSON together with the observable effects the claims
speak about: how many client.Get attempts were made and the list of
backoff sleep durations (in milliseconds), in order. -/
structure FetchResult where
  result : Except FetchError Bytes
  attempts : Nat
  sleeps : List Nat

/-- The retry loop of fetchJSON (api.go lines 193-204).  The outcome of
attempt n is outcomes n; attempt numbers start at 1.  On a transport
failure at attempt = maxRetries the loop returns the last error; otherwise
it sleeps attempt * 500 ms and retries.  The fuel argument mirrors the for
loop bound (attempt <= maxRetries) and is maxRetries + 1 - attempt at every
reachable call, so the fuel-0 branch is never reached from fetchJSON. -/
def clientGetLoop (outcomes : Nat → AttemptOutcome) : Nat → Nat → (Except String HTTPResponse) × Nat × List Nat
  | _, 0 => (.error "loop bound exceeded", 0, [])
  | attempt, fuel + 1 =>
    match outcomes attempt with
    | .response r => (.ok r, attempt, [])
    | .failure e =>
      if attempt = maxRetries then (.error e, attempt, [])
      else
        match clientGetLoop outcomes (attempt + 1) fuel with
        | (res, n, sleeps) => (res, n, (attempt * 500) :: sleeps)

/-- fetchJSON from api.go, parameterized by the credential (os.Getenv
result, none when unset) and by the transport outcomes of the successive
client.Get attempts.  URL construction is omitted: it only assembles the
query string and cannot fail for the paths the program builds. -/
def fetchJSON (apiKey : Option String) (outcomes : Nat → AttemptOutcome) : FetchResult :=
  match apiKey with
  | none => ⟨.error (.configError "LOC_API_KEY environment variable is not set"), 0, []⟩
  | some _ =>
    match clientGetLoop outcomes 1 maxRetries with
    | (.error lastErr, n, sleeps) => ⟨.error (.transportError maxRetries lastErr), n, sleeps⟩
    | (.ok resp, n, sleeps) =>
      if resp.statusCode ≠ 200 then
        ⟨.error (.upstreamError resp.statusCode (resp.body.take 2048)), n, sleeps⟩
      else
        ⟨.ok resp.body, n, sleeps⟩

/-- A JSON value, as far as the decoder needs to distinguish shapes.
Numbers are modelled as integers (the fields the program decodes are
integral). -/
inductive Json where
  | null
  | bool (b : Bool)
  | num (n : Int)
  | str (s : String)
  | arr (elems : List Json)
  | obj (fields : List (String × Json))

/-- Field lookup in a JSON object, last occurrence winning, as in Go's
encoding/json for duplicate keys. -/
def lookupField (fields : List (String × Json)) (key : String) : Option Json :=
  fields.foldl (fun acc f => if f.1 = key then some f.2 else acc) none

/-- json.Unmarshal into a Go string field: absent and null leave the zero
value, a JSON string sets it, anything else is a type error. -/
def asString : Option Json → Except String String
  | none => .ok ""
  | some .null => .ok ""
  | some (.str s) => .ok s
  | some _ => .error "cannot unmarshal into string"

/-- json.Unmarshal into a Go int field. -/
def asInt : Option Json → Except String Int
  | none => .ok 0
  | some .null => .ok 0
  | some (.num n) => .ok n
  | some _ => .error "cannot unmarshal into int"

/-- json.Unmarshal into a Go *int field: absent and null give nil. -/
def asOptInt : Option Json → Except String (Option Int)
  | none => .ok none
  | some .null => .ok none
  | some (.num n) => .ok (some n)
  | some _ => .error "cannot unmarshal into int pointer"

/-- json.Unmarshal of one element of the terms.item array into an
ApiTermItem struct; a null element leaves the zero struct. -/
def decodeTermItem : Json → Except String ApiTermItem
  | .null => .ok ⟨"", 0, none⟩
  | .obj fields => do
    let chamber ← asString (lookupField fields "chamber")
    let startYear ← asInt (lookupField fields "startYear")
    let endYear ← asOptInt (lookupField fields "endYear")
    .ok ⟨chamber, startYear, endYear⟩
  | _ => .error "cannot unmarshal into term item"

/-- Decode each element of the terms.item array, failing on the first
element that does not unmarshal. -/
def decodeTermItems : List Json → Except String (List ApiTermItem)
  | [] => .ok []
  | j :: rest =>
    match decodeTermItem j with
    | .error e => .error e
    | .ok t =>
      match decodeTermItems rest with
      | .error e => .error e
      | .ok ts => .ok (t :: ts)

/-- json.Unmarshal into the nested ApiTerms struct. -/
def decodeTerms : Option Json → Except String ApiTerms
  | none => .ok ⟨[]⟩
  | some .null => .ok ⟨[]⟩
  | some (.obj fields) =>
    match lookupField fields "item" with
    | none => .ok ⟨[]⟩
    | some .null => .ok ⟨[]⟩
    | some (.arr elems) =>
      match decodeTermItems elems with
      | .error e => .error e
      | .ok items => .ok ⟨items⟩
    | some _ => .error "cannot unmarshal into term item slice"
  | some _ => .error "cannot unmarshal into terms"

/-- json.Unmarshal of one member object into an ApiMember struct, using the
JSON tags of models.go; absent fields keep their zero values. -/
def decodeApiMember : Json → Except String ApiMember
  | .null => .ok ⟨"", "", ⟨[]⟩, "", 0, ""⟩
  | .obj fields => do
    let bioguideID ← asString (lookupField fields "bioguideId")
    let name ← asString (lookupField fields "name")
    let terms ← decodeTerms (lookupField fields "terms")
    let state ← asString (lookupField fields "state")
    let district ← asInt (lookupField fields "district")
    let party ← asString (lookupField fields "partyName")
    .ok ⟨bioguideID, name, terms, state, district, party⟩
  | _ => .error "cannot unmarshal into ApiMember"

/-- Decode each element of a candidate data array, failing on the first
element that does not unmarshal. -/
def decodeApiMemberList : List Json → Except String (List ApiMember)
  | [] => .ok []
  | j :: rest =>
    match decodeApiMember j with
    | .error e => .error e
    | .ok m =>
      match decodeApiMemberList rest with
      | .error e => .error e
      | .ok ms => .ok (m :: ms)

/-- json.Unmarshal of a field value into the []ApiMember slice: null gives
the nil slice without error, an array decodes elementwise, and any other
shape is a type error. -/
def decodeApiMembers : Json → Except String (List ApiMember)
  | .null => .ok []
  | .arr elems => decodeApiMemberList elems
  | _ => .error "cannot unmarshal into ApiMember slice"

/-- The raw bytes of an upstream response as the top-level unmarshal of
decodeData sees them: either they fail to parse as a JSON object, or they
give the object fields in the order Go map iteration visits them (that
order is unspecified at runtime, so it is an explicit input here). -/
inductive RawJSON where
  | invalid (msg : String)
  | object (fields : List (String × Json))

/-- The field loop of decodeData (api.go lines 158-168): skip the request
and pagination metadata keys; on the first remaining field, attempt to
unmarshal its value as []ApiMember, returning the unmarshal error if it
fails and the array if it succeeds; error when no field remains. -/
def decodeDataLoop : List (String × Json) → Except String (List ApiMember)
  | [] => .error "no member data array found in API response"
  | (key, value) :: rest =>
    if key = "request" ∨ key = "pagination" then decodeDataLoop rest
    else
      match decodeApiMembers value with
      | .error e => .error ("failed to unmarshal api members from key " ++ key ++ ": " ++ e)
      | .ok ms => .ok ms

/-- decodeData from api.go: unmarshal the top level generically, then run
the field loop. -/
def decodeData : RawJSON → Except String (List ApiMember)
  | .invalid msg => .error ("invalid json structure: " ++ msg)
  | .object fields => decodeDataLoop fields

/-- The error wrapping of getMembers (api.go lines 47-54): a fetch failure
or a decode failure, each wrapping the underlying error. -/
inductive GetMembersError where
  | fetchFailed (e : FetchError)
  | decodeFailed (e : String)
deriving DecidableEq

/-- 1 hour, the cache TTL of getMembers, in seconds. -/
def oneHour : Nat := 3600

/-- The state code to full name map built by getMembers from getStateList.
The Go code builds a map and indexes it; the codes are pairwise distinct,
so first-match lookup is the same function. -/
def stateCodeToName (code : String) : Option String :=
  (getStateList.find? (fun s => s.code == code)).map (fun s => s.name)

/-- The observable outcome of one getMembers call: the returned value or
error, the cache mapping after the call, and whether the fetch client was
invoked. -/
structure GetMembersOutcome where
  result : Except GetMembersError (List Member)
  cache : Cache
  fetchInvoked : Bool

/-- getMembers from api.go, with the ambient cache singleton passed in and
returned, time.Now() passed as now, and the outcome of the fetch+top-level
parse passed as fetch (ok carries the parsed top level of the body that
fetchJSON returned; error carries the fetchJSON error).  On a cache hit
the cached list is returned; an unrecognized code returns the empty list;
otherwise fetch and decode, filter by the full state name, normalize with
apiMemberToMember, cache the result for one hour and return it. -/
def getMembers (cache : Cache) (now : Nat) (fetch : Except FetchError RawJSON) (state : String) : GetMembersOutcome :=
  match Cache.Get cache state now with
  | some cachedMembers => ⟨.ok cachedMembers, cache, false⟩
  | none =>
    match stateCodeToName state with
    | none => ⟨.ok [], cache, false⟩
    | some stateFullName =>
      match fetch with
      | .error err => ⟨.error (.fetchFailed err), cache, true⟩
      | .ok rawJSON =>
        match decodeData rawJSON with
        | .error err => ⟨.error (.decodeFailed err), cache, true⟩
        | .ok allApiMembers =>
          let members := (allApiMembers.filter (fun m => m.state == stateFullName)).filterMap apiMemberToMember
          ⟨.ok members, Cache.Set cache state members oneHour now, true⟩

/-- The cache states reachable by the program: the process starts with
NewCache and the cache is mutated only inside getMembers. -/
inductive ReachableCache : Cache → Prop where
  | empty : ReachableCache NewCache
  | step (c : Cache) (now : Nat) (f : Except FetchError RawJSON) (s : String) :
      ReachableCache c → ReachableCache (getMembers c now f s).cache

/-- A well-formed member object as the upstream API returns it, used as a
concrete decoder input. -/
def goodMemberJson : Json :=
  .obj [("bioguideId", .str "A000001"), ("name", .str "Doe, Jane"),
        ("terms", .obj [("item", .arr [.obj [("chamber", .str "Senate"), ("startYear", .num 2021)]])]),
        ("state", .str "Georgia"), ("district", .num 0), ("partyName", .str "Democratic")]

/-- The ApiMember that goodMemberJson decodes to. -/
def goodApiMember : ApiMember :=
  ⟨"A000001", "Doe, Jane", ⟨[⟨"Senate", 2021, none⟩]⟩, "Georgia", 0, "Democratic"⟩

/-- A currently serving Democratic senator record, used as a concrete
normalizer input. -/
def demMemberRecord : ApiMember :=
  ⟨"B001", "Doe, Jane", ⟨[⟨"Senate", 2021, none⟩]⟩, "Georgia", 0, "Democratic"⟩

/-- The client-facing record demMemberRecord normalizes to. -/
def demMember : Member := ⟨"B001", "Jane", "Doe", " (D)", "Senator"⟩

/-- A sample client-facing record used as a concrete cache value. -/
def sampleMember : Member := ⟨"rep-1", "Alex", "Johnson", " (D)", "District 1 Rep."⟩

/-- A transport outcome sequence on which every attempt fails. -/
def allFailOutcomes : Nat → AttemptOutcome := fun _ => .failure "conn refused"

/-- A transport outcome sequence: attempt 1 fails, attempt 2 gets an
HTTP 500 response. -/
def upstream500At2 : Nat → AttemptOutcome :=
  fun n => if n = 2 then .response ⟨500, [65, 66]⟩ else .failure "conn reset"

/-- A nonempty string has positive length. -/
theorem strLengthPos (s : String) (h : s ≠ "") : 0 < s.length := by
  cases s with
  | mk data =>
    cases data with
    | nil => exact absurd rfl h
    | cons c cs => simp [String.length]

/-- apiMemberToMember evaluated on a record whose last term has no end
year: the conversion succeeds and each field is the corresponding derived
display field. -/
theorem apiMemberToMember_eq (m : ApiMember) (t : ApiTermItem)
    (hlast : m.terms.item.getLast? = some t) (hend : t.endYear = none) :
    apiMemberToMember m =
      some ⟨m.bioguideID, (parseLastFirstName m.name).1, (parseLastFirstName m.name).2,
            partyLabel m.party, districtLabel m.district t.chamber⟩ := by
  simp only [apiMemberToMember, hlast, hend]

/-- apiMemberToMember returns none when the record has no terms or when the
last term has an end year. -/
theorem apiMemberToMember_none (m : ApiMember) :
    (m.terms.item.getLast? = none → apiMemberToMember m = none) ∧
    (∀ t y, m.terms.item.getLast? = some t → t.endYear = some y → apiMemberToMember m = none) := by
  constructor
  · intro h
    simp only [apiMemberToMember, h]
  · intro t y hlast hend
    simp only [apiMemberToMember, hlast, hend]

/-- When apiMemberToMember succeeds, the last term exists, has no end year,
and the returned record is determined by the derived display fields. -/
theorem apiMemberToMember_some (m : ApiMember) (mem : Member)
    (hmem : apiMemberToMember m = some mem) :
    ∃ t, m.terms.item.getLast? = some t ∧ t.endYear = none ∧
      mem = ⟨m.bioguideID, (parseLastFirstName m.name).1, (parseLastFirstName m.name).2,
             partyLabel m.party, districtLabel m.district t.chamber⟩ := by
  rcases hl : m.terms.item.getLast? with _ | t
  · rw [(apiMemberToMember_none m).1 hl] at hmem
    cases hmem
  · rcases he : t.endYear with _ | y
    · rw [apiMemberToMember_eq m t hl he] at hmem
      exact ⟨t, rfl, he, (Option.some.injEq _ _).mp hmem.symm⟩
    · rw [(apiMemberToMember_none m).2 t y hl he] at hmem
      cases hmem

/-- C2 (amended): for every raw record that normalizes to a client record,
the party label is the source label with its leading space: Democratic
gives " (D)", Republican " (R)", Independent " (I)", Libertarian " (L)",
Green " (G)"; any other non-empty party name gives " (name)"; the empty
party name gives the empty label. -/
theorem c2_party_label (m : ApiMember) (mem : Member)
    (hmem : apiMemberToMember m = some mem) :
    (m.party = "Democratic" → mem.party = " (D)") ∧
    (m.party = "Republican" → mem.party = " (R)") ∧
    (m.party = "Independent" → mem.party = " (I)") ∧
    (m.party = "Libertarian" → mem.party = " (L)") ∧
    (m.party = "Green" → mem.party = " (G)") ∧
    (m.party ∉ (["Democratic", "Republican", "Independent", "Libertarian", "Green"] : List String) →
      m.party ≠ "" → mem.party = " (" ++ m.party ++ ")") ∧
    (m.party = "" → mem.party = "") := by
  obtain ⟨t, hl, he, hmemEq⟩ := apiMemberToMember_some m mem hmem
  have hp : mem.party = partyLabel m.party := by rw [hmemEq]
  refine ⟨?_, ?_, ?_, ?_, ?_, ?_, ?_⟩ <;> intro h
  · rw [hp, h]; decide
  · rw [hp, h]; decide
  · rw [hp, h]; decide
  · rw [hp, h]; decide
  · rw [hp, h]; decide
  · intro hne
    simp only [List.mem_cons, List.not_mem_nil, or_false] at h
    push_neg at h
    obtain ⟨h1, h2, h3, h4, h5⟩ := h
    rw [hp]
    unfold partyLabel
    rw [if_neg h1, if_neg h2, if_neg h3, if_neg h4, if_neg h5, if_pos (strLengthPos _ hne)]
  · rw [hp, h]; decide

/-- C2: the claim as frozen is false on the code: the record with party
name Democratic normalizes to the party label " (D)" (with a leading
space), not "(D)". -/
theorem c2_label_counterexample :
    (apiMemberToMember demMemberRecord).map Member.party = some " (D)" ∧
    (" (D)" : String) ≠ "(D)" := by
  constructor
  · rfl
  · decide

/-- C2 witness: the amended theorem applied to a concrete Democratic
record. -/
theorem c2_party_label_witness : demMember.party = " (D)" :=
  (c2_party_label demMemberRecord demMember (by decide)).1 rfl

/-- C4 (confirmed): normalize is absent on zero term entries; absent when
the last term entry has a non-null end year regardless of earlier entries;
and a client record is materialized only when the last term entry has no
end year. -/
theorem c4_current_filter (m : ApiMember) :
    (m.terms.item = [] → apiMemberToMember m = none) ∧
    (∀ t, m.terms.item.getLast? = some t → t.endYear ≠ none → apiMemberToMember m = none) ∧
    (∀ mem, apiMemberToMember m = some mem →
      ∃ t, m.terms.item.getLast? = some t ∧ t.endYear = none) := by
  refine ⟨?_, ?_, ?_⟩
  · intro h
    exact (apiMemberToMember_none m).1 (by rw [h]; rfl)
  · intro t hl hne
    rcases he : t.endYear with _ | y
    · exact absurd he hne
    · exact (apiMemberToMember_none m).2 t y hl he
  · intro mem hmem
    obtain ⟨t, hl, he, _⟩ := apiMemberToMember_some m mem hmem
    exact ⟨t, hl, he⟩

/-- C4 witness: the theorem applied to a record with no terms and to a
record whose single (hence last) term has an end year. -/
theorem c4_current_filter_witness :
    apiMemberToMember ⟨"X1", "Smith", ⟨[]⟩, "Ohio", 1, ""⟩ = none ∧
    apiMemberToMember ⟨"X2", "Smith", ⟨[⟨"House", 2019, some 2021⟩]⟩, "Ohio", 1, ""⟩ = none :=
  ⟨(c4_current_filter _).1 rfl,
   (c4_current_filter _).2.1 ⟨"House", 2019, some 2021⟩ rfl (by decide)⟩

/-- C9 (confirmed): for a currently serving record, district 0 with the
last term chamber equal to Senate up to ASCII case gives the label
Senator; district 0 with any other chamber gives At-Large Rep.; a non-zero
district n gives District n Rep. -/
theorem c9_district_label (m : ApiMember) (mem : Member) (t : ApiTermItem)
    (hmem : apiMemberToMember m = some mem)
    (hlast : m.terms.item.getLast? = some t) :
    (m.district = 0 → equalFold t.chamber "Senate" = true → mem.district = "Senator") ∧
    (m.district = 0 → equalFold t.chamber "Senate" = false → mem.district = "At-Large Rep.") ∧
    (m.district ≠ 0 → mem.district = "District " ++ toString m.district ++ " Rep.") := by
  obtain ⟨t2, hl2, he2, hmemEq⟩ := apiMemberToMember_some m mem hmem
  have ht : t2 = t := by rw [hlast] at hl2; exact ((Option.some.injEq _ _).mp hl2.symm)
  have hd : mem.district = districtLabel m.district t.chamber := by rw [hmemEq, ht]
  refine ⟨?_, ?_, ?_⟩
  · intro h0 hsen
    rw [hd]
    unfold districtLabel
    rw [if_pos h0, if_pos hsen]
  · intro h0 hsen
    rw [hd]
    unfold districtLabel
    rw [if_pos h0, if_neg (by rw [hsen]; exact Bool.false_ne_true)]
  · intro h0
    rw [hd]
    unfold districtLabel
    rw [if_neg h0]

/-- C9 witness: the theorem applied to a concrete current senator record
with district 0 and chamber Senate. -/
theorem c9_district_label_witness : demMember.district = "Senator" :=
  (c9_district_label demMemberRecord demMember ⟨"Senate", 2021, none⟩ (by decide) rfl).1 rfl rfl

/-- C1 (code bug): decodeData does not tolerate unknown non-array fields.
On the top-level object with fields pagination, foo (an unknown scalar
field) and members (a well-formed record array), visited in that map
iteration order, the loop hits foo first, fails to unmarshal it as a
record array and aborts with that unmarshal error instead of returning the
members array; without the unknown field the same members value decodes
successfully, and an all-metadata object yields the schema error. -/
theorem c1_decode_rejects_unknown_field :
    (∃ e, decodeData (.object [("pagination", .obj []), ("foo", .num 7),
        ("members", .arr [goodMemberJson])]) = .error e) ∧
    decodeData (.object [("pagination", .obj []), ("members", .arr [goodMemberJson])]) =
      .ok [goodApiMember] ∧
    decodeData (.object [("pagination", .obj []), ("request", .obj [])]) =
      .error "no member data array found in API response" :=
  ⟨⟨"failed to unmarshal api members from key foo: cannot unmarshal into ApiMember slice", rfl⟩,
   rfl, rfl⟩

/-- The value a cache built from a chronological list of Set operations
holds at a key: the last Set for that key, if any. -/
theorem applySets_apply (ops : List SetOp) (c : Cache) (k : String) :
    applySets c ops k =
      (match lastSetFor ops k with
       | none => c k
       | some op => some ⟨op.value, op.time + op.ttl⟩) := by
  induction ops generalizing c with
  | nil => rfl
  | cons op rest ih =>
    show applySets (Cache.Set c op.key op.value op.ttl op.time) rest k = _
    rw [ih]
    cases h : lastSetFor rest k with
    | some o => simp [lastSetFor, h]
    | none =>
      simp only [lastSetFor, h]
      by_cases hk : k = op.key
      · subst hk
        simp [Cache.Set]
      · have hk2 : ¬op.key = k := fun hkk => hk hkk.symm
        simp [Cache.Set, hk, hk2]

/-- C3 (amended): Get returns absent when the key was never set and when
the read happens strictly after the expiration instant of the last entry
set for the key (the Go code uses time.Now().After, so at the exact
expiration instant the entry is still returned); a read strictly before
expiration returns exactly the last value set for the key. -/
theorem c3_cache_expiry (ops : List SetOp) (k : String) (now : Nat) :
    (lastSetFor ops k = none → Cache.Get (runSets ops) k now = none) ∧
    (∀ op, lastSetFor ops k = some op → op.time + op.ttl < now →
      Cache.Get (runSets ops) k now = none) ∧
    (∀ op, lastSetFor ops k = some op → now < op.time + op.ttl →
      Cache.Get (runSets ops) k now = some op.value) := by
  refine ⟨?_, ?_, ?_⟩
  · intro h
    unfold Cache.Get runSets
    rw [applySets_apply, h]
    simp [NewCache]
  · intro op h hlt
    unfold Cache.Get runSets
    rw [applySets_apply, h]
    simp [hlt]
  · intro op h hlt
    have hge : ¬(op.time + op.ttl < now) := by omega
    unfold Cache.Get runSets
    rw [applySets_apply, h]
    simp [hge]

/-- C3: the claim as frozen is false at the expiration boundary: an entry
set at time 0 with a 3600-second TTL is still returned by a read at
exactly now = 3600, although now is greater than or equal to the
expiration instant. -/
theorem c3_expiry_counterexample :
    (0 : Nat) + 3600 ≤ 3600 ∧
    Cache.Get (runSets [⟨"NY", [sampleMember], 3600, 0⟩]) "NY" 3600 = some [sampleMember] := by
  constructor
  · decide
  · decide

/-- C3 witness: the amended theorem applied to a key set twice, read
before expiry: the read returns the value of the later Set. -/
theorem c3_cache_expiry_witness :
    Cache.Get (runSets [⟨"NY", [], 3600, 0⟩, ⟨"NY", [sampleMember], 3600, 10⟩]) "NY" 100 =
      some [sampleMember] :=
  (c3_cache_expiry [⟨"NY", [], 3600, 0⟩, ⟨"NY", [sampleMember], 3600, 10⟩] "NY" 100).2.2
    ⟨"NY", [sampleMember], 3600, 10⟩ (by decide) (by decide)

/-- The attempts and sleeps of fetchJSON are those of its retry loop,
whatever the status check decides afterwards. -/
theorem fetchJSON_attempts_sleeps (k : String) (o : Nat → AttemptOutcome) :
    (fetchJSON (some k) o).attempts = (clientGetLoop o 1 maxRetries).2.1 ∧
    (fetchJSON (some k) o).sleeps = (clientGetLoop o 1 maxRetries).2.2 := by
  simp only [fetchJSON]
  rcases h : clientGetLoop o 1 maxRetries with ⟨res, n, sleeps⟩
  cases res with
  | error e => simp
  | ok r =>
    by_cases hs : r.statusCode ≠ 200
    · simp [hs]
    · simp [hs]

/-- The retry loop reaches the outcome of at most three attempts. -/
theorem clientGetLoop_attempts_le (o : Nat → AttemptOutcome) :
    ∀ fuel attempt, attempt ≤ maxRetries → (clientGetLoop o attempt fuel).2.1 ≤ maxRetries := by
  intro fuel
  induction fuel with
  | zero =>
    intro a ha
    show (0 : Nat) ≤ maxRetries
    exact Nat.zero_le _
  | succ fuel ih =>
    intro a ha
    simp only [clientGetLoop]
    cases h : o a with
    | response r => simpa using ha
    | failure e =>
      by_cases he : a = maxRetries
      · simp [he]
      · have ha2 : a + 1 ≤ maxRetries := by
          rw [maxRetries] at ha he ⊢
          omega
        have hrec := ih (a + 1) ha2
        rcases hr : clientGetLoop o (a + 1) fuel with ⟨res, n, sleeps⟩
        rw [hr] at hrec
        simp [he, hr]
        simpa using hrec

/-- C6 (confirmed): the fetch client attempts the call at most three
times; when every transport attempt fails it makes exactly three
attempts, sleeps after the first two failures with durations growing
linearly in the attempt number (attempt * 500 ms), and returns the
transport error wrapping the third (last) underlying failure; in general
the sleep sequence is one linearly increasing delay per failed attempt
before the last attempt made. -/
theorem c6_retry_budget (k : String) (o : Nat → AttemptOutcome) (e1 e2 e3 : String)
    (h1 : o 1 = .failure e1) (h2 : o 2 = .failure e2) (h3 : o 3 = .failure e3) :
    (∀ o2 : Nat → AttemptOutcome,
      (fetchJSON (some k) o2).attempts ≤ maxRetries ∧
      (fetchJSON (some k) o2).sleeps =
        (List.range ((fetchJSON (some k) o2).attempts - 1)).map (fun j => (j + 1) * 500)) ∧
    fetchJSON (some k) o = ⟨.error (.transportError maxRetries e3), 3, [1 * 500, 2 * 500]⟩ := by
  constructor
  · intro o2
    obtain ⟨hatt, hsl⟩ := fetchJSON_attempts_sleeps k o2
    constructor
    · rw [hatt]
      exact clientGetLoop_attempts_le o2 maxRetries 1 (by decide)
    · rw [hatt, hsl]
      cases ho1 : o2 1 with
      | response r => simp [clientGetLoop, maxRetries, ho1]
      | failure f1 =>
        cases ho2 : o2 2 with
        | response r => simp [clientGetLoop, maxRetries, ho1, ho2, List.range_succ]
        | failure f2 =>
          cases ho3 : o2 3 with
          | response r => simp [clientGetLoop, maxRetries, ho1, ho2, ho3, List.range_succ]
          | failure f3 => simp [clientGetLoop, maxRetries, ho1, ho2, ho3, List.range_succ]
  · simp [fetchJSON, clientGetLoop, maxRetries, h1, h2, h3]

/-- C6 witness: the theorem applied to the outcome sequence on which
every attempt is a transport failure. -/
theorem c6_retry_budget_witness :
    fetchJSON (some "k") allFailOutcomes =
      ⟨.error (.transportError maxRetries "conn refused"), 3, [1 * 500, 2 * 500]⟩ ∧
    (fetchJSON (some "k") allFailOutcomes).attempts ≤ maxRetries := by
  have h := c6_retry_budget "k" allFailOutcomes "conn refused" "conn refused" "conn refused"
    rfl rfl rfl
  exact ⟨h.2, (h.1 allFailOutcomes).1⟩

/-- C7 (confirmed): when the upstream responds on some attempt i with a
non-200 status (after transport failures on the earlier attempts), the
client makes no further attempt: it stops at attempt i and returns the
upstream error carrying that status code and the response body truncated
to at most 2048 bytes. -/
theorem c7_upstream_no_retry (k : String) (o : Nat → AttemptOutcome) (i : Nat) (r : HTTPResponse)
    (hi1 : 1 ≤ i) (hi3 : i ≤ maxRetries)
    (hprev : ∀ j, 1 ≤ j → j < i → ∃ e, o j = .failure e)
    (hresp : o i = .response r) (hstatus : r.statusCode ≠ 200) :
    (fetchJSON (some k) o).result = .error (.upstreamError r.statusCode (r.body.take 2048)) ∧
    (fetchJSON (some k) o).attempts = i ∧
    (r.body.take 2048).length ≤ 2048 := by
  have hsnip : (r.body.take 2048).length ≤ 2048 := by
    rw [List.length_take]
    exact Nat.min_le_left _ _
  rw [maxRetries] at hi3
  interval_cases i
  · refine ⟨?_, ?_, hsnip⟩ <;>
      simp [fetchJSON, clientGetLoop, maxRetries, hresp, hstatus]
  · obtain ⟨f1, hf1⟩ := hprev 1 (by omega) (by omega)
    refine ⟨?_, ?_, hsnip⟩ <;>
      simp [fetchJSON, clientGetLoop, maxRetries, hf1, hresp, hstatus]
  · obtain ⟨f1, hf1⟩ := hprev 1 (by omega) (by omega)
    obtain ⟨f2, hf2⟩ := hprev 2 (by omega) (by omega)
    refine ⟨?_, ?_, hsnip⟩ <;>
      simp [fetchJSON, clientGetLoop, maxRetries, hf1, hf2, hresp, hstatus]

/-- C7 witness: the theorem applied to the outcome sequence whose second
attempt receives an HTTP 500 response after a first transport failure. -/
theorem c7_upstream_no_retry_witness :
    (fetchJSON (some "k") upstream500At2).result = .error (.upstreamError 500 [65, 66]) ∧
    (fetchJSON (some "k") upstream500At2).attempts = 2 ∧
    ([65, 66] : Bytes).length ≤ 2048 := by
  have h := c7_upstream_no_retry "k" upstream500At2 2 ⟨500, [65, 66]⟩ (by decide) (by decide)
    (fun j h1 h2 => ⟨"conn reset", by
      have hj : j = 1 := by omega
      subst hj
      rfl⟩)
    (by rfl) (by decide)
  exact ⟨h.1, h.2.1, by decide⟩

/-- C5 (confirmed): on a cache miss for a recognized code, a fetch
failure or a decode failure makes getMembers return that error and leave
the cache mapping exactly as it was: nothing is stored and no partial
result is returned. -/
theorem c5_error_leaves_cache (c : Cache) (now : Nat) (f : Except FetchError RawJSON)
    (code fullName : String)
    (hmiss : Cache.Get c code now = none)
    (hname : stateCodeToName code = some fullName)
    (herr : (∃ e, f = .error e) ∨ ∃ raw, f = .ok raw ∧ ∃ e, decodeData raw = .error e) :
    (∃ ge, (getMembers c now f code).result = .error ge) ∧
    (getMembers c now f code).cache = c := by
  rcases herr with ⟨e, rfl⟩ | ⟨raw, rfl, e, hdec⟩
  · constructor
    · exact ⟨.fetchFailed e, by simp [getMembers, hmiss, hname]⟩
    · simp [getMembers, hmiss, hname]
  · constructor
    · exact ⟨.decodeFailed e, by simp [getMembers, hmiss, hname, hdec]⟩
    · simp [getMembers, hmiss, hname, hdec]

/-- C5 witness: the theorem applied to the empty cache, a recognized code
and a failed fetch. -/
theorem c5_error_leaves_cache_witness :
    (∃ ge, (getMembers NewCache 0 (.error (.transportError 3 "boom")) "GA").result = .error ge) ∧
    (getMembers NewCache 0 (.error (.transportError 3 "boom")) "GA").cache = NewCache :=
  c5_error_leaves_cache NewCache 0 (.error (.transportError 3 "boom")) "GA" "Georgia"
    (by decide) (by decide) (.inl ⟨_, rfl⟩)

/-- Every code of the jurisdiction table is already uppercase. -/
theorem table_codes_toUpper : ∀ s ∈ getStateList, toUpperStr s.code = s.code := by decide

/-- If the uppercased code is not in the jurisdiction table, neither is
the code itself. -/
theorem stateCodeToName_upper_none {code : String}
    (h : stateCodeToName (toUpperStr code) = none) : stateCodeToName code = none := by
  rcases ho : stateCodeToName code with _ | n
  · rfl
  · exfalso
    have ho2 := ho
    unfold stateCodeToName at ho2
    rcases hf : getStateList.find? (fun s => s.code == code) with _ | s
    · rw [hf] at ho2; cases ho2
    · have hmem := List.mem_of_find?_eq_some hf
      have hpred := List.find?_some hf
      have hcode : s.code = code := by simpa using hpred
      have hup : toUpperStr code = code := by
        rw [← hcode]
        exact table_codes_toUpper s hmem
      rw [hup] at h
      rw [h] at ho
      cases ho

/-- The cache after a getMembers call is either unchanged or extended by
one Set at a recognized code. -/
theorem getMembers_cache_cases (c : Cache) (now : Nat) (f : Except FetchError RawJSON) (s : String) :
    (getMembers c now f s).cache = c ∨
    ∃ fullName members, stateCodeToName s = some fullName ∧
      (getMembers c now f s).cache = Cache.Set c s members oneHour now := by
  cases hg : Cache.Get c s now with
  | some v => left; simp [getMembers, hg]
  | none =>
    cases hn : stateCodeToName s with
    | none => left; simp [getMembers, hg, hn]
    | some fullName =>
      cases f with
      | error e => left; simp [getMembers, hg, hn]
      | ok raw =>
        cases hd : decodeData raw with
        | error e => left; simp [getMembers, hg, hn, hd]
        | ok all =>
          right
          exact ⟨fullName, (all.filter (fun m => m.state == fullName)).filterMap apiMemberToMember,
                 rfl, by simp [getMembers, hg, hn, hd]⟩

/-- Invariant of the reachable cache states: every key that holds an
entry is a recognized jurisdiction code. -/
theorem reachable_keys_recognized {c : Cache} (h : ReachableCache c) :
    ∀ k, c k ≠ none → stateCodeToName k ≠ none := by
  induction h with
  | empty =>
    intro k hk
    exact absurd rfl hk
  | step c now f s hc ih =>
    intro k hk
    rcases getMembers_cache_cases c now f s with heq | ⟨fullName, members, hname, heq⟩
    · rw [heq] at hk
      exact ih k hk
    · rw [heq] at hk
      unfold Cache.Set at hk
      by_cases hks : k = s
      · rw [hks, hname]
        exact fun hcon => Option.noConfusion hcon
      · rw [if_neg hks] at hk
        exact ih k hk

/-- C8 (confirmed): for every code whose uppercased form is not in the
jurisdiction table, a lookup against any reachable cache state returns
the empty list with no error, leaves the cache unchanged, and never
invokes the fetch client. -/
theorem c8_unrecognized_code (c : Cache) (now : Nat) (f : Except FetchError RawJSON)
    (code : String)
    (hreach : ReachableCache c)
    (hup : stateCodeToName (toUpperStr code) = none) :
    getMembers c now f code = ⟨.ok [], c, false⟩ := by
  have hcode : stateCodeToName code = none := stateCodeToName_upper_none hup
  have hc : c code = none := by
    by_contra hne
    exact (reachable_keys_recognized hreach code hne) hcode
  have hget : Cache.Get c code now = none := by
    unfold Cache.Get
    rw [hc]
  simp [getMembers, hget, hcode]

/-- C8 witness: the theorem applied to the initial empty cache and the
unrecognized code zz. -/
theorem c8_unrecognized_code_witness :
    getMembers NewCache 0 (.error (.configError "no key")) "zz" = ⟨.ok [], NewCache, false⟩ :=
  c8_unrecognized_code NewCache 0 (.error (.configError "no key")) "zz"
    ReachableCache.empty (by decide)

/-- C10 (confirmed): a cache-miss lookup for a recognized code that
fetches and decodes successfully but ends with an empty normalized
filtered list returns the empty list, stores it under the one-hour TTL,
and a second lookup for the same code at any instant within that hour is
a cache hit: it returns the same empty list without invoking the fetch
client and without changing the cache. -/
theorem c10_caches_empty_list (c : Cache) (now : Nat) (raw : RawJSON)
    (code fullName : String) (all : List ApiMember)
    (hmiss : Cache.Get c code now = none)
    (hname : stateCodeToName code = some fullName)
    (hdec : decodeData raw = .ok all)
    (hempty : (all.filter (fun m => m.state == fullName)).filterMap apiMemberToMember = []) :
    (getMembers c now (.ok raw) code).result = .ok [] ∧
    (getMembers c now (.ok raw) code).cache code = some ⟨[], now + oneHour⟩ ∧
    (getMembers c now (.ok raw) code).fetchInvoked = true ∧
    ∀ now2 f2, now2 ≤ now + oneHour →
      getMembers (getMembers c now (.ok raw) code).cache now2 f2 code =
        ⟨.ok [], (getMembers c now (.ok raw) code).cache, false⟩ := by
  have hout : getMembers c now (.ok raw) code =
      ⟨.ok [], Cache.Set c code [] oneHour now, true⟩ := by
    simp [getMembers, hmiss, hname, hdec, hempty]
  refine ⟨?_, ?_, ?_, ?_⟩
  · rw [hout]
  · rw [hout]
    simp [Cache.Set]
  · rw [hout]
  · intro now2 f2 h2
    have hget2 : Cache.Get (Cache.Set c code [] oneHour now) code now2 = some [] := by
      have hle : ¬(now + oneHour < now2) := by omega
      unfold Cache.Get Cache.Set
      rw [if_pos rfl]
      simp [hle]
    rw [hout]
    simp [getMembers, hget2]

/-- C10 witness: the theorem applied to the empty cache, the code GA and
an upstream payload whose data array is empty, with a second lookup half
an hour later. -/
theorem c10_caches_empty_list_witness :
    (getMembers NewCache 0 (.ok (.object [("members", .arr [])])) "GA").result = .ok [] ∧
    (getMembers NewCache 0 (.ok (.object [("members", .arr [])])) "GA").cache "GA" =
      some ⟨[], 0 + oneHour⟩ ∧
    getMembers (getMembers NewCache 0 (.ok (.object [("members", .arr [])])) "GA").cache
        1800 (.error (.configError "no key")) "GA" =
      ⟨.ok [], (getMembers NewCache 0 (.ok (.object [("members", .arr [])])) "GA").cache, false⟩ := by
  have h := c10_caches_empty_list NewCache 0 (.object [("members", .arr [])]) "GA" "Georgia" []
    (by decide) (by decide) rfl rfl
  exact ⟨h.1, h.2.1, h.2.2.2 1800 (.error (.configError "no key")) (by decide)⟩

end RepTracker
